import Mathlib

/-!
Verification development for the target-side ARINC 615A firmware loader
(`modulo_bc`): a shallow embedding of the authenticator, the ARINC codec,
the TFTP engine loops, the firmware sink and the session FSM, with theorems
checking the natural-language specification against the code.

Byte sequences are modelled as `List Nat` (each element a byte value).
Multi-byte wire integers are big-endian, encoded explicitly.
-/

namespace GseFls

/-! ## Constants (tftp.h, fsm.h, auth.h, tftp.c) -/

/-- TFTP opcode for Read Request (tftp.h). -/
def OP_RRQ : Nat := 1

/-- TFTP opcode for Write Request (tftp.h). -/
def OP_WRQ : Nat := 2

/-- TFTP opcode for Data packet (tftp.h). -/
def OP_DATA : Nat := 3

/-- TFTP opcode for Acknowledgment (tftp.h). -/
def OP_ACK : Nat := 4

/-- TFTP data block size (tftp.h). -/
def BLOCK_SIZE : Nat := 512

/-- Fatal threshold for the upload failure counter (fsm.h). -/
def MAX_UPLOAD_FAILURES : Nat := 2

/-- Minimum free space required on the firmware partition (tftp.c). -/
def MIN_AVAILABLE_SPACE : Nat := 500000

/-- Size in bytes of the GSE authentication key (auth.h). -/
def GSE_KEY_SIZE : Nat := 32

/-! ## Big-endian encodings -/

/-- Big-endian serialization of a 16-bit value, as produced by htons on a
struct field. -/
def be16 (x : Nat) : List Nat := [x / 256 % 256, x % 256]

/-- Big-endian serialization of a 32-bit value, as produced by htonl on a
struct field. -/
def be32 (x : Nat) : List Nat :=
  [x / 2 ^ 24 % 256, x / 2 ^ 16 % 256, x / 2 ^ 8 % 256, x % 256]

/-- Value of a big-endian byte string (ntohs/ntohl reading). -/
def beNat : List Nat → Nat
  | [] => 0
  | b :: t => b * 256 ^ t.length + beNat t

/-! ## Authenticator (auth.c) -/

/-- The expected GSE key embedded in auth.c: the 32 ASCII bytes of the
string literal assigned to GSE_EXPECTED_KEY there. -/
def GSE_EXPECTED_KEY : List Nat :=
  [71, 83, 69, 95, 83, 69, 67, 82, 69, 84, 95, 75, 69, 89, 95, 51,
   50, 95, 66, 89, 84, 69, 83, 95, 69, 88, 65, 67, 84, 76, 89, 33]

/-- Result of one call to auth_perform_handshake, as seen by its caller:
ESP_OK, ESP_ERR_TIMEOUT, or ESP_FAIL. -/
inductive HsResult
  | ok
  | timeout
  | fail
deriving DecidableEq

/-- One recvfrom outcome during the handshake receive loop: a receive
error (timeout or hard), or a datagram giving the decoded opcode, block
and the contents of the packet data area. -/
inductive RecvEvent
  | errTimeout
  | errHard
  | pkt (opcode block : Nat) (dataArea : List Nat)
deriving DecidableEq

/-- Receive loop of the first phase of auth_perform_handshake
(auth.c lines 157-198): loop on recvfrom; a timeout returns
ESP_ERR_TIMEOUT and a hard receive error returns ESP_FAIL; a packet whose
opcode is not DATA is ignored and the loop continues; otherwise memcmp
compares GSE_KEY_SIZE bytes of the packet data area against the expected
key, a mismatch returns ESP_FAIL and a match breaks out with success.
The received payload length is not consulted.  An exhausted event list is
a blocking recvfrom, which the socket timeout turns into a timeout. -/
def authRecvKeyPhase (gseKey : List Nat) : List RecvEvent → HsResult
  | [] => .timeout
  | .errTimeout :: _ => .timeout
  | .errHard :: _ => .fail
  | .pkt opcode _ dataArea :: rest =>
    if opcode ≠ OP_DATA then authRecvKeyPhase gseKey rest
    else if dataArea.take GSE_KEY_SIZE ≠ gseKey then .fail
    else .ok

/-- Acceptance rule of the spec sentence for C2, written from the spec
words for comparison with the code: opcode must equal DATA, the payload
length must be exactly 32 bytes, and the payload must equal the expected
key byte for byte. -/
def handshakeAcceptSpec (gseKey : List Nat) (opcode : Nat)
    (payload : List Nat) : Bool :=
  opcode == OP_DATA && payload.length == GSE_KEY_SIZE && payload == gseKey

/-- The handshake retry loop of state_maint_wait_enter
(state_maint_wait.c lines 95-120): each element is the result of one
auth_perform_handshake call; ESP_OK breaks out of the loop, ESP_ERR_TIMEOUT
continues, and any other result logs a warning and also continues.  Returns
the index of the attempt on which the loop broke out, or none if the event
list ends with the loop still running. -/
def maintWaitAuthLoop : List HsResult → Nat → Option Nat
  | [], _ => none
  | .ok :: _, i => some i
  | .timeout :: rest, i => maintWaitAuthLoop rest (i + 1)
  | .fail :: rest, i => maintWaitAuthLoop rest (i + 1)

/-! ## ARINC codec (arinc.c, arinc.h) -/

/-- Packed size of lus_data_t in declaration order (arinc.h lines 70-81):
file_length(4) + protocol_version(2) + status_code(2) + desc_length(1) +
description(256) + counter(2) + exception_timer(2) + estimated_time(2) +
load_list_ratio(3). -/
def LUS_SIZE : Nat := 4 + 2 + 2 + 1 + 256 + 2 + 2 + 2 + 3

/-- Serialization of the record built by init_lus (arinc.c lines 44-93).
The description argument is the byte string of the C string (no NUL);
ratio3 likewise.  init_lus rejects a ratio whose strlen is not 3; null
pointers cannot arise in the embedding.  The struct is zeroed by memset,
file_length is htonl of sizeof(lus_data_t), protocol_version is "A4",
the description is truncated to 255 bytes, NUL-terminated and zero-padded
to 256, both timers are 0 and the ratio occupies the final 3 bytes. -/
def init_lus (status : Nat) (description : List Nat) (counter : Nat)
    (ratio3 : List Nat) : Option (List Nat) :=
  if ratio3.length ≠ 3 then none
  else
    let dlen := min description.length 255
    some (be32 LUS_SIZE ++ [65, 52] ++ be16 status ++ [dlen] ++
      (description.take dlen ++ List.replicate (256 - dlen) 0) ++
      be16 counter ++ [0, 0] ++ [0, 0] ++ ratio3.take 3)

/-- Output record of parse_lur (arinc.h lur_data_t, semantic view):
numeric fields hold their values, string fields hold the parsed bytes. -/
structure LurRecord where
  fileLength : Nat
  protocolVersion : List Nat
  numHeaderFiles : Nat
  headerFileLength : Nat
  headerFilename : List Nat
  loadPartNumberLength : Nat
  loadPartNumber : List Nat
deriving DecidableEq

/-- parse_lur (arinc.c lines 95-176): requires at least 8 bytes of header,
rejects num_header_files = 0, reads one length byte and that many name
bytes, then one length byte and that many part-number bytes, failing
whenever a declared length exceeds the remaining buffer or the buffer
ends before a length byte.  String fields are copied capped at 255 bytes
(the declared length, a single byte in C, never exceeds that cap). -/
def parse_lur (buf : List Nat) : Option LurRecord :=
  if buf.length < 8 then none
  else if beNat ((buf.drop 6).take 2) = 0 then none
  else
    match buf.drop 8 with
    | [] => none
    | hlen :: rest1 =>
      if rest1.length < hlen then none
      else
        match rest1.drop hlen with
        | [] => none
        | plen :: rest3 =>
          if rest3.length < plen then none
          else some
            { fileLength := beNat (buf.take 4)
              protocolVersion := (buf.drop 4).take 2
              numHeaderFiles := beNat ((buf.drop 6).take 2)
              headerFileLength := hlen
              headerFilename := rest1.take (min hlen 255)
              loadPartNumberLength := plen
              loadPartNumber := rest3.take (min plen 255) }

/-- Failure condition of parse_lur exactly as the code computes it:
buffer shorter than 8, num_header_files zero, the buffer ending before
one of the two declared-length bytes, or a declared length exceeding the
bytes remaining after it. -/
def lurCodeMalformed (buf : List Nat) : Bool :=
  decide (buf.length < 8) || (beNat ((buf.drop 6).take 2) == 0) ||
    (match buf.drop 8 with
     | [] => true
     | hlen :: rest1 =>
       decide (rest1.length < hlen) ||
         (match rest1.drop hlen with
          | [] => true
          | plen :: rest3 => decide (rest3.length < plen)))

/-- Failure condition of the claim for C8, written from the spec words
for comparison with the code: shorter than 8 bytes, num_header_files
zero, or a declared name or part-number length exceeding the bytes
remaining in the buffer (a declared length exists only where its length
byte exists). -/
def lurSpecMalformed (buf : List Nat) : Bool :=
  decide (buf.length < 8) || (beNat ((buf.drop 6).take 2) == 0) ||
    (match buf.drop 8 with
     | [] => false
     | hlen :: rest1 =>
       decide (rest1.length < hlen) ||
         (match rest1.drop hlen with
          | [] => false
          | plen :: rest3 => decide (rest3.length < plen)))

/-! ## Session FSM (fsm.c, fsm.h) -/

/-- States of the B/C session FSM (fsm.h). -/
inductive FsmState
  | stInit
  | operational
  | maintWait
  | uploadPrep
  | uploading
  | verify
  | save
  | teardown
  | error
deriving DecidableEq

/-- Next-state decision of one bc_task run-loop iteration (fsm.c lines
77-123): the run handler returns a verdict, then the loop overrides it
with ST_ERROR whenever upload_failure_count strictly exceeds
MAX_UPLOAD_FAILURES. -/
def bc_task_next (runResult : FsmState) (failCount : Nat) : FsmState :=
  if MAX_UPLOAD_FAILURES < failCount then .error else runResult

/-! ## Firmware sink (storage.c) and SAVE state (state_save.c) -/

/-- Contents of the firmware partition relevant to commit: the staging
file temp.bin and the final file final.bin, each present or absent. -/
structure FwFs where
  temp : Option (List Nat)
  final : Option (List Nat)
deriving DecidableEq

/-- unlink(FINAL_FILE_PATH): succeeds exactly when the file exists, and
afterwards the file is absent. -/
def unlinkFinal (fs : FwFs) : Bool × FwFs :=
  (fs.final.isSome, { fs with final := none })

/-- rename(TEMP_FILE_PATH, FINAL_FILE_PATH): succeeds exactly when the
staging file exists, moving its contents to the final path. -/
def renameTempToFinal (fs : FwFs) : Bool × FwFs :=
  match fs.temp with
  | none => (false, fs)
  | some b => (true, { temp := none, final := some b })

/-- finalize_firmware_file (storage.c lines 131-169): remove any existing
final.bin, where the unlink result is only logged (a missing final file
is a warning, not an error), then rename temp.bin to final.bin; the call
fails exactly when the rename fails. -/
def finalize_firmware_file (fs : FwFs) : Bool × FwFs :=
  let fs1 := (unlinkFinal fs).2
  renameTempToFinal fs1

/-- state_save_run (state_save.c lines 39-57): commit the staged file;
on failure go to ST_ERROR, on success go to ST_TEARDOWN. -/
def state_save_run (fs : FwFs) : FsmState × FwFs :=
  let r := finalize_firmware_file fs
  (if r.1 then .teardown else .error, r.2)

/-! ## TFTP engine: handle_wrq (tftp.c lines 154-275) -/

/-- One recvfrom outcome in the handle_wrq receive loop: any receive
error (timeout included) breaks the loop, otherwise a packet with its
decoded opcode, block number and payload arrives. -/
inductive WrqEvent
  | recvErr
  | pkt (opcode block : Nat) (payload : List Nat)
deriving DecidableEq

/-- Loop state of handle_wrq: the expected block number, the bytes
accumulated in the 256-byte lur_buf (total_received is its length), the
upload_failure_count increments performed, and the blocks acknowledged. -/
structure WrqState where
  expected : Nat
  buf : List Nat
  failCount : Nat
  acked : List Nat
deriving DecidableEq

/-- Initial handle_wrq loop state: expected block 1, empty buffer. -/
def wrqInit : WrqState := ⟨1, [], 0, []⟩

/-- Processing of one correctly numbered DATA packet in handle_wrq
(tftp.c lines 230-245): the payload is copied into lur_buf only when it
fits within the 256 bytes together with what was already received
(otherwise it is silently discarded), an ACK carrying the expected block
is sent, and the expected block number advances. -/
def wrqProcess (st : WrqState) (payload : List Nat) : WrqState :=
  { expected := st.expected + 1
    buf := if st.buf.length + payload.length ≤ 256 then st.buf ++ payload
           else st.buf
    failCount := st.failCount
    acked := st.acked ++ [st.expected] }

/-- Receive loop of handle_wrq (tftp.c lines 211-246): a receive error
breaks out of the loop; a packet that is not DATA or carries the wrong
block number increments upload_failure_count and the loop continues; a
correctly numbered DATA packet is processed and the loop ends exactly
when its payload is shorter than BLOCK_SIZE. -/
def handleWrqLoop : WrqState → List WrqEvent → WrqState
  | st, [] => st
  | st, e :: rest =>
    match e with
    | .recvErr => st
    | .pkt opcode block payload =>
      if opcode ≠ OP_DATA ∨ block ≠ st.expected then
        handleWrqLoop { st with failCount := st.failCount + 1 } rest
      else
        let st' := wrqProcess st payload
        if payload.length < BLOCK_SIZE then st'
        else handleWrqLoop st' rest

/-- handle_wrq after its receive loop (tftp.c lines 248-265): with no
bytes accumulated it returns without a record; otherwise parse_lur runs
on exactly the bytes accumulated in lur_buf. -/
def handle_wrq (events : List WrqEvent) : Option LurRecord :=
  let st := handleWrqLoop wrqInit events
  if st.buf.length = 0 then none else parse_lur st.buf

/-! ## TFTP engine: make_rrq (tftp.c lines 396-643) -/

/-- One recvfrom outcome in the make_rrq receive loop.  A packet event
carries, besides the decoded opcode, block and payload, the environment
consulted while processing it: the partition space query result (none
models an esp_spiffs_info failure), whether the fwrite of the payload
succeeds, and whether the sendto of the ACK succeeds. -/
inductive RrqEvent
  | recvErr
  | pkt (opcode block : Nat) (payload : List Nat) (spaceQuery : Option Nat)
      (writeOk ackOk : Bool)
deriving DecidableEq

/-- Loop state of make_rrq: whether the hardware part number was verified,
total bytes received, the payload chunks written to the staging file in
order, the bytes absorbed by the streaming SHA-256 context in order, and
the blocks acknowledged. -/
structure RrqState where
  pnChecked : Bool
  totalBytes : Nat
  written : List (List Nat)
  absorbed : List Nat
  acked : List Nat
deriving DecidableEq

/-- Initial make_rrq loop state. -/
def rrqInit : RrqState := ⟨false, 0, [], [], []⟩

/-- Result of a make_rrq call that reached the terminal block with at
least one byte received: the chunks written to staging, the bytes the
hash context absorbed, the part-number flag and the byte count. -/
structure RrqResult where
  written : List (List Nat)
  absorbed : List Nat
  pnChecked : Bool
  totalBytes : Nat
  acked : List Nat
deriving DecidableEq

/-- Outcome of processing one make_rrq receive event: abort the call
(file closed, hash context freed, no hash produced), continue the loop,
or break out after a terminal block. -/
inductive RrqStep
  | abort
  | next (st : RrqState)
  | brk (st : RrqState)
deriving DecidableEq

/-- Whether a step outcome is the terminal-block break. -/
def RrqStep.isBrk : RrqStep → Bool
  | .brk _ => true
  | _ => false

/-- Processing of one receive event in make_rrq (tftp.c lines 450-618).
A receive error aborts.  A non-DATA packet is ignored.  On the first
data (total_bytes = 0, part number not yet checked), when the payload
reaches 40 bytes, its bytes [20..40) are compared against the module
hardware part number and a mismatch aborts (incrementing the failure
counter); a shorter first payload only logs that the part number could
not be verified yet.  Then the partition space query must succeed and
report at least MIN_AVAILABLE_SPACE, the payload is written to staging
and absorbed by the hash context, the received block is acknowledged,
and the loop breaks exactly when the payload is shorter than BLOCK_SIZE.
The hardware part number HW_PN is only declared extern in fsm.h and its
defining translation unit is not in the sources, so its 20-byte value
(per the spec) is a parameter.

`rrqPush` is the state update a fully processed DATA packet performs:
the part-number flag latches once the first data reaches 40 bytes, the
payload is appended to the staging file and to the hash context, the
byte total grows and the received block number is acknowledged. -/
def rrqPush (st : RrqState) (block : Nat) (payload : List Nat) : RrqState :=
  { pnChecked := st.pnChecked ∨ (st.totalBytes = 0 ∧ 40 ≤ payload.length)
    totalBytes := st.totalBytes + payload.length
    written := st.written ++ [payload]
    absorbed := st.absorbed ++ payload
    acked := st.acked ++ [block] }

/-- Guard of the part-number abort in make_rrq (tftp.c lines 503-523):
on the first data packet (nothing received yet, flag still clear) whose
payload reaches 40 bytes, the 20 bytes at offset 20 differ from the
module hardware part number. -/
def pnMismatch (hwPn : List Nat) (st : RrqState) (payload : List Nat) : Prop :=
  st.pnChecked = false ∧ st.totalBytes = 0 ∧ 40 ≤ payload.length ∧
    (payload.drop 20).take 20 ≠ hwPn.take 20

instance (hwPn : List Nat) (st : RrqState) (payload : List Nat) :
    Decidable (pnMismatch hwPn st payload) :=
  inferInstanceAs (Decidable (st.pnChecked = false ∧ st.totalBytes = 0 ∧
    40 ≤ payload.length ∧ (payload.drop 20).take 20 ≠ hwPn.take 20))

/-- Decision taken by make_rrq for one receive event, with the abort,
skip, continue and terminal-break paths of tftp.c lines 450-618. -/
def rrqProcess (hwPn : List Nat) (st : RrqState) (e : RrqEvent) : RrqStep :=
  match e with
  | .recvErr => .abort
  | .pkt opcode block payload spaceQuery writeOk ackOk =>
    if opcode ≠ OP_DATA then .next st
    else if pnMismatch hwPn st payload then .abort
    else
      match spaceQuery with
      | none => .abort
      | some avail =>
        if avail < MIN_AVAILABLE_SPACE then .abort
        else if ¬writeOk then .abort
        else if ¬ackOk then .abort
        else if payload.length < BLOCK_SIZE then .brk (rrqPush st block payload)
        else .next (rrqPush st block payload)

/-- End of make_rrq after the terminal block (tftp.c lines 620-643): with
zero bytes received the call returns without setting the hash; otherwise
the SHA-256 context is finalized into the caller's buffer. -/
def rrqFinish (st : RrqState) : Option RrqResult :=
  if st.totalBytes = 0 then none
  else some ⟨st.written, st.absorbed, st.pnChecked, st.totalBytes, st.acked⟩

/-- Receive loop of make_rrq.  An exhausted event list is a blocking
recvfrom, whose socket timeout make_rrq treats as a receive error and
aborts. -/
def makeRrqLoop (hwPn : List Nat) : RrqState → List RrqEvent → Option RrqResult
  | _, [] => none
  | st, e :: rest =>
    match rrqProcess hwPn st e with
    | .abort => none
    | .next st' => makeRrqLoop hwPn st' rest
    | .brk st' => rrqFinish st'

/-- The 32-byte hash make_rrq stores in the caller's buffer:
mbedtls_sha256_finish over the context that absorbed the payload bytes,
written here as any streaming-hash finalization function applied to the
absorbed byte sequence. -/
def rrqHash (sha : List Nat → List Nat) (r : RrqResult) : List Nat :=
  sha r.absorbed

/-! ## Theorems -/

/-- C1: on a key mismatch auth_perform_handshake returns ESP_FAIL, but the
handshake loop in state_maint_wait_enter treats that result exactly like a
timeout: it logs a warning and re-enters the handshake, here succeeding on
the second attempt (index 1) instead of falling to the ERROR state.  The
claimed fatal, non-retried KeyMismatch is what auth.c's own BC-LLR-19 and
BC-LLR-91 comments require, so the retry is a code bug. -/
theorem keymismatch_is_retried_not_fatal :
    authRecvKeyPhase GSE_EXPECTED_KEY
      [RecvEvent.pkt OP_DATA 1 (List.replicate 32 0)] = HsResult.fail ∧
    maintWaitAuthLoop [HsResult.fail, HsResult.ok] 0 = some 1 := by
  exact ⟨by decide, rfl⟩

/-- C2 counterexample: a DATA packet whose payload is 36 bytes long (the
expected key followed by four extra bytes) is accepted by the handshake
receive phase, while the claimed acceptance rule, which requires the
payload length to be exactly 32, rejects it. -/
theorem handshake_accepts_36_byte_payload :
    authRecvKeyPhase GSE_EXPECTED_KEY
      [RecvEvent.pkt OP_DATA 1 (GSE_EXPECTED_KEY ++ [0, 0, 0, 0])] =
      HsResult.ok ∧
    handshakeAcceptSpec GSE_EXPECTED_KEY OP_DATA
      (GSE_EXPECTED_KEY ++ [0, 0, 0, 0]) = false := by
  exact ⟨by decide, by decide⟩

/-- C2 amended: a received packet is accepted as the loader's key exactly
when its opcode equals DATA and the first 32 bytes of its data area equal
the expected GSE key; the payload length is never consulted, so datagrams
whose payload length differs from 32 bytes can be accepted. -/
theorem handshake_accept_ignores_payload_length (opcode block : Nat)
    (dataArea : List Nat) :
    authRecvKeyPhase GSE_EXPECTED_KEY [RecvEvent.pkt opcode block dataArea] =
      HsResult.ok ↔
    opcode = OP_DATA ∧ dataArea.take GSE_KEY_SIZE = GSE_EXPECTED_KEY := by
  by_cases hop : opcode = OP_DATA
  · by_cases hk : dataArea.take GSE_KEY_SIZE = GSE_EXPECTED_KEY
    · simp [authRecvKeyPhase, hop, hk]
    · simp [authRecvKeyPhase, hop, hk]
  · simp [authRecvKeyPhase, hop]

set_option maxRecDepth 4096 in
/-- C3 counterexample: the packed LUS record built by init_lus serializes
to 274 bytes, not the claimed 272. -/
theorem lus_record_is_274_bytes_not_272 :
    ((init_lus 1 [] 0 [48, 48, 48]).getD []).length = 274 ∧
    (274 : Nat) ≠ 272 := by
  exact ⟨by decide, by decide⟩

/-- C3 amended: for every status code, description, counter and 3-character
ratio, init_lus succeeds and serializes the record packed in declaration
order into exactly LUS_SIZE = 274 bytes, whose leading file_length field
holds that same record size in big-endian. -/
theorem init_lus_length_and_file_length (status : Nat) (description : List Nat)
    (counter : Nat) (ratio3 : List Nat) (h : ratio3.length = 3) :
    ∃ bytes, init_lus status description counter ratio3 = some bytes ∧
      bytes.length = LUS_SIZE ∧ LUS_SIZE = 274 ∧
      bytes.take 4 = be32 LUS_SIZE := by
  unfold init_lus
  rw [if_neg (by omega)]
  refine ⟨_, rfl, ?_, rfl, rfl⟩
  simp only [List.length_append, List.length_take, List.length_replicate,
    be32, be16, List.length_cons, List.length_nil, LUS_SIZE]
  have hd : min (min description.length 255) description.length =
      min description.length 255 := by omega
  have hb : min description.length 255 ≤ 255 := Nat.min_le_right _ _
  rw [hd, h]
  omega

/-- C3 amended witness: the amended statement evaluated at a concrete
status, description, counter and ratio. -/
theorem init_lus_length_and_file_length_witness :
    ∃ bytes, init_lus 1 [79, 75] 0 [48, 48, 48] = some bytes ∧
      bytes.length = LUS_SIZE ∧ LUS_SIZE = 274 ∧
      bytes.take 4 = be32 LUS_SIZE :=
  init_lus_length_and_file_length 1 [79, 75] 0 [48, 48, 48] (by decide)

/-- C4: after any bc_task run-loop iteration, a failure counter strictly
above MAX_UPLOAD_FAILURES forces the next state to ERROR regardless of the
verdict the run handler returned, and the FSM never continues in a
non-ERROR state while the counter exceeds the threshold. -/
theorem fsm_forces_error_past_failure_threshold (runResult : FsmState)
    (failCount : Nat) :
    (MAX_UPLOAD_FAILURES < failCount →
      bc_task_next runResult failCount = FsmState.error) ∧
    (bc_task_next runResult failCount ≠ FsmState.error →
      failCount ≤ MAX_UPLOAD_FAILURES) := by
  constructor
  · intro h
    simp [bc_task_next, h]
  · intro h
    by_contra hc
    exact h (by simp [bc_task_next, Nat.lt_of_not_le hc])

/-- C4 witness: with the counter at 3 the FSM overrides a run verdict of
MAINT_WAIT with ERROR. -/
theorem fsm_forces_error_past_failure_threshold_witness :
    bc_task_next FsmState.maintWait 3 = FsmState.error :=
  (fsm_forces_error_past_failure_threshold FsmState.maintWait 3).1 (by decide)

/-- C7: commit first removes any existing final file, a missing final file
not being an error, then renames staging to final; the commit reports
failure exactly when the rename fails (that is, when no staging file
exists), in which case the SAVE state transitions to ERROR, and on success
(staging contents moved to the final path) SAVE transitions to TEARDOWN. -/
theorem commit_fails_iff_rename_fails (fs : FwFs) :
    ((finalize_firmware_file fs).1 = true ↔ fs.temp.isSome = true) ∧
    ((finalize_firmware_file fs).1 = false →
      (finalize_firmware_file fs).2.final = none) ∧
    ((finalize_firmware_file fs).1 = true →
      (finalize_firmware_file fs).2.final = fs.temp ∧
      (finalize_firmware_file fs).2.temp = none) ∧
    ((state_save_run fs).1 =
      if fs.temp.isSome then FsmState.teardown else FsmState.error) := by
  cases htemp : fs.temp <;>
    simp [finalize_firmware_file, unlinkFinal, renameTempToFinal,
      state_save_run, htemp]

/-- C7 witness: with both a staged file and an old final file present,
commit succeeds, the staged contents replace the final file, and the
staging path is empty afterwards. -/
theorem commit_fails_iff_rename_fails_witness :
    (finalize_firmware_file ⟨some [1], some [2]⟩).2.final = some [1] ∧
    (finalize_firmware_file ⟨some [1], some [2]⟩).2.temp = none :=
  (commit_fails_iff_rename_fails ⟨some [1], some [2]⟩).2.2.1 (by decide)

/-- A non-abort outcome of rrqProcess leaves the loop state unchanged
(an ignored non-DATA packet) or applies the rrqPush update of a fully
processed DATA packet. -/
lemma rrqProcess_next_or_brk (hwPn : List Nat) (st : RrqState) (e : RrqEvent)
    (st' : RrqState)
    (h : rrqProcess hwPn st e = RrqStep.next st' ∨
      rrqProcess hwPn st e = RrqStep.brk st') :
    st' = st ∨ ∃ block payload, st' = rrqPush st block payload := by
  cases e with
  | recvErr =>
    rcases h with h | h <;> exact absurd h (by simp [rrqProcess])
  | pkt opcode block payload sq w a =>
    by_cases hop : opcode = OP_DATA
    · by_cases hpn : pnMismatch hwPn st payload
      · rcases h with h | h <;> simp [rrqProcess, hop, hpn] at h
      · cases sq with
        | none => rcases h with h | h <;> simp [rrqProcess, hop, hpn] at h
        | some avail =>
          by_cases hav : avail < MIN_AVAILABLE_SPACE
          · rcases h with h | h <;> simp [rrqProcess, hop, hpn, hav] at h
          · cases w
            · rcases h with h | h <;> simp [rrqProcess, hop, hpn, hav] at h
            · cases a
              · rcases h with h | h <;> simp [rrqProcess, hop, hpn, hav] at h
              · by_cases hlen : payload.length < BLOCK_SIZE
                · rcases h with h | h <;>
                    simp [rrqProcess, hop, hpn, hav, hlen] at h
                  exact Or.inr ⟨block, payload, h.symm⟩
                · rcases h with h | h <;>
                    simp [rrqProcess, hop, hpn, hav, hlen] at h
                  exact Or.inr ⟨block, payload, h.symm⟩
    · rcases h with h | h <;> simp [rrqProcess, hop] at h
      exact Or.inl h.symm

/-- The rrqPush update feeds the hash context exactly the bytes appended
to the staging file, so it preserves the streaming invariant. -/
lemma rrqPush_inv (st : RrqState) (block : Nat) (payload : List Nat)
    (hinv : st.absorbed = st.written.flatten) :
    (rrqPush st block payload).absorbed =
      (rrqPush st block payload).written.flatten := by
  simp [rrqPush, hinv]

/-- Along every run of the make_rrq receive loop, the bytes absorbed by
the hash context stay equal to the concatenation of the payload chunks
written to the staging file, in block order. -/
lemma makeRrqLoop_inv (hwPn : List Nat) (events : List RrqEvent) :
    ∀ st r, st.absorbed = st.written.flatten →
      makeRrqLoop hwPn st events = some r → r.absorbed = r.written.flatten := by
  induction events with
  | nil =>
    intro st r _ h
    simp [makeRrqLoop] at h
  | cons e rest ih =>
    intro st r hinv h
    have hstep : makeRrqLoop hwPn st (e :: rest) =
        (match rrqProcess hwPn st e with
         | .abort => none
         | .next st' => makeRrqLoop hwPn st' rest
         | .brk st' => rrqFinish st') := rfl
    rw [hstep] at h
    cases hp : rrqProcess hwPn st e with
    | abort => rw [hp] at h; cases h
    | next st' =>
      rw [hp] at h
      rcases rrqProcess_next_or_brk hwPn st e st' (Or.inl hp) with rfl | ⟨b, p, rfl⟩
      · exact ih _ r hinv h
      · exact ih _ r (rrqPush_inv _ b p hinv) h
    | brk st' =>
      rw [hp] at h
      have hinv' : st'.absorbed = st'.written.flatten := by
        rcases rrqProcess_next_or_brk hwPn st e st' (Or.inr hp) with rfl | ⟨b, p, rfl⟩
        · exact hinv
        · exact rrqPush_inv _ b p hinv
      have h2 : rrqFinish st' = some r := h
      by_cases ht : st'.totalBytes = 0
      · simp [rrqFinish, ht] at h2
      · simp [rrqFinish, ht] at h2
        rw [← h2]
        exact hinv'

/-- C6: on a successful firmware pull (a make_rrq run that reaches the
terminal block with at least one byte received), the hash written to the
caller's buffer is the streaming hash finalized over exactly the
concatenation, in block order, of the DATA payloads written to the
staging file. -/
theorem make_rrq_hash_covers_written_payloads (sha : List Nat → List Nat)
    (hwPn : List Nat) (events : List RrqEvent) (r : RrqResult)
    (h : makeRrqLoop hwPn rrqInit events = some r) :
    rrqHash sha r = sha r.written.flatten := by
  have hinv := makeRrqLoop_inv hwPn events rrqInit r rfl h
  rw [rrqHash, hinv]

/-- C6 witness: a one-packet pull of three bytes, with the hash read off
as the identity finalizer applied to the absorbed bytes. -/
theorem make_rrq_hash_covers_written_payloads_witness :
    rrqHash id ⟨[[1, 2, 3]], [1, 2, 3], false, 3, [1]⟩ =
      id (([[1, 2, 3]] : List (List Nat)).flatten) :=
  make_rrq_hash_covers_written_payloads id []
    [RrqEvent.pkt OP_DATA 1 [1, 2, 3] (some 600000) true true] _ (by decide)

/-- C5 counterexample: a pull whose only DATA packet carries 30 bytes is
below the 40 bytes needed for the hardware part-number check, so the
check is deferred; the packet is also terminal, and make_rrq completes
successfully (the hash is finalized) with the part number never
verified, instead of aborting as claimed. -/
theorem short_first_packet_completes_without_pn_check :
    makeRrqLoop (List.replicate 20 0) rrqInit
      [RrqEvent.pkt OP_DATA 1 (List.replicate 30 7) (some 600000) true true] =
      some ⟨[List.replicate 30 7], List.replicate 30 7, false, 30, [1]⟩ := by
  decide

/-- C5 amended: when the first firmware DATA packet is nonempty and
shorter than 40 bytes, the hardware part-number check is skipped, and
since such a packet is also terminal (shorter than BLOCK_SIZE) the
transfer completes successfully with the part number never verified,
for any hardware part number and any sufficient partition space. -/
theorem make_rrq_short_first_packet_completes (hwPn : List Nat) (block : Nat)
    (payload : List Nat) (avail : Nat) (hlen0 : 0 < payload.length)
    (hlen40 : payload.length < 40) (hsp : MIN_AVAILABLE_SPACE ≤ avail) :
    makeRrqLoop hwPn rrqInit
      [RrqEvent.pkt OP_DATA block payload (some avail) true true] =
      some ⟨[payload], payload, false, payload.length, [block]⟩ := by
  have h40 : ¬ (40 ≤ payload.length) := by omega
  have hpn : ¬ pnMismatch hwPn rrqInit payload := by
    intro hcon
    exact h40 hcon.2.2.1
  have h512 : payload.length < BLOCK_SIZE := by
    unfold BLOCK_SIZE; omega
  have h0 : ¬ (0 + payload.length = 0) := by omega
  have hne : payload ≠ [] := by
    intro hcon
    rw [hcon] at hlen0
    simp at hlen0
  have hpnl : ¬ pnMismatch hwPn ⟨false, 0, [], [], []⟩ payload := fun hcon =>
    h40 hcon.2.2.1
  simp [makeRrqLoop, rrqProcess, rrqPush, rrqFinish, rrqInit, h40, hpn, hpnl,
    h512, Nat.not_lt.mpr hsp, h0, hne]

/-- C5 amended witness: a single 1-byte first packet completes the pull
with the part-number flag still false. -/
theorem make_rrq_short_first_packet_completes_witness :
    makeRrqLoop [] rrqInit
      [RrqEvent.pkt OP_DATA 1 [5] (some 500000) true true] =
      some ⟨[[5]], [5], false, 1, [1]⟩ :=
  make_rrq_short_first_packet_completes [] 1 [5] 500000 (by decide) (by decide)
    (by decide)

/-- C9: in the handle_wrq receive loop a correctly numbered DATA packet
ends the loop, after being processed, exactly when its payload is shorter
than BLOCK_SIZE; and in the make_rrq receive loop a DATA packet whose
processing does not abort is the terminal break exactly when its payload
is shorter than BLOCK_SIZE (so a 512-byte payload never terminates either
transfer, and a shorter payload, length 0 included, always does), the
break discarding all later events and a continue consuming them. -/
theorem terminal_block_iff_payload_short :
    (∀ (st : WrqState) (payload : List Nat) (rest : List WrqEvent),
      handleWrqLoop st (WrqEvent.pkt OP_DATA st.expected payload :: rest) =
        if payload.length < BLOCK_SIZE then wrqProcess st payload
        else handleWrqLoop (wrqProcess st payload) rest) ∧
    (∀ (hwPn : List Nat) (st : RrqState) (block : Nat) (payload : List Nat)
        (sq : Option Nat) (w a : Bool),
      rrqProcess hwPn st (RrqEvent.pkt OP_DATA block payload sq w a) ≠
        RrqStep.abort →
      (rrqProcess hwPn st (RrqEvent.pkt OP_DATA block payload sq w a)).isBrk =
        decide (payload.length < BLOCK_SIZE)) ∧
    (∀ (hwPn : List Nat) (st st' : RrqState) (e : RrqEvent)
        (rest : List RrqEvent),
      (rrqProcess hwPn st e = RrqStep.brk st' →
        makeRrqLoop hwPn st (e :: rest) = rrqFinish st') ∧
      (rrqProcess hwPn st e = RrqStep.next st' →
        makeRrqLoop hwPn st (e :: rest) = makeRrqLoop hwPn st' rest)) := by
  refine ⟨?_, ?_, ?_⟩
  · intro st payload rest
    simp [handleWrqLoop]
  · intro hwPn st block payload sq w a h
    by_cases hpn : pnMismatch hwPn st payload
    · exact absurd (by simp [rrqProcess, hpn]) h
    · cases sq with
      | none => exact absurd (by simp [rrqProcess, hpn]) h
      | some avail =>
        by_cases hav : avail < MIN_AVAILABLE_SPACE
        · exact absurd (by simp [rrqProcess, hpn, hav]) h
        · cases w
          · exact absurd (by simp [rrqProcess, hpn, hav]) h
          · cases a
            · exact absurd (by simp [rrqProcess, hpn, hav]) h
            · by_cases hlen : payload.length < BLOCK_SIZE
              · simp [rrqProcess, hpn, hav, hlen, RrqStep.isBrk]
              · simp [rrqProcess, hpn, hav, hlen, RrqStep.isBrk]
  · intro hwPn st st' e rest
    constructor <;> intro h <;> simp [makeRrqLoop, h]

/-- C9 witness: a two-byte DATA packet processed from the initial pull
state is the terminal break, matching its payload being shorter than
BLOCK_SIZE. -/
theorem terminal_block_iff_payload_short_witness :
    (rrqProcess [] rrqInit
      (RrqEvent.pkt OP_DATA 1 [9, 9] (some 600000) true true)).isBrk =
      decide (([9, 9] : List Nat).length < BLOCK_SIZE) :=
  terminal_block_iff_payload_short.2.1 [] rrqInit 1 [9, 9] (some 600000) true
    true (by decide)

/-- C10: a correctly numbered DATA packet whose payload would push the
accumulated LUR bytes past 256 is still acknowledged with the expected
block number and advances the expected block, but its payload is
discarded (lur_buf is unchanged) and upload_failure_count is not
incremented; the loop then continues or terminates purely by the payload
length rule, so the later parse_lur call sees only the bytes that fit. -/
theorem oversized_lur_payload_acked_and_dropped (st : WrqState)
    (payload : List Nat) (rest : List WrqEvent)
    (hover : 256 < st.buf.length + payload.length) :
    (wrqProcess st payload).buf = st.buf ∧
    (wrqProcess st payload).expected = st.expected + 1 ∧
    (wrqProcess st payload).failCount = st.failCount ∧
    (wrqProcess st payload).acked = st.acked ++ [st.expected] ∧
    handleWrqLoop st (WrqEvent.pkt OP_DATA st.expected payload :: rest) =
      if payload.length < BLOCK_SIZE then wrqProcess st payload
      else handleWrqLoop (wrqProcess st payload) rest := by
  refine ⟨?_, rfl, rfl, rfl, ?_⟩
  · simp [wrqProcess, Nat.not_le.mpr hover]
  · simp [handleWrqLoop]

set_option maxRecDepth 4096 in
/-- C10 witness: a 300-byte DATA packet arriving with an empty buffer
exceeds the 256-byte cap, so the buffer stays empty and the failure
counter stays untouched. -/
theorem oversized_lur_payload_acked_and_dropped_witness :
    (wrqProcess ⟨1, [], 0, []⟩ (List.replicate 300 2)).buf = [] ∧
    (wrqProcess ⟨1, [], 0, []⟩ (List.replicate 300 2)).failCount = 0 :=
  ⟨(oversized_lur_payload_acked_and_dropped ⟨1, [], 0, []⟩
      (List.replicate 300 2) [] (by decide)).1,
   (oversized_lur_payload_acked_and_dropped ⟨1, [], 0, []⟩
      (List.replicate 300 2) [] (by decide)).2.2.1⟩

/-- C8 counterexample: a buffer of exactly 8 bytes with one declared
header file is rejected by parse_lur, although it is not shorter than 8
bytes, num_header_files is not 0, and it contains no declared name or
part-number length at all, so the claimed error condition does not hold
and the claim predicts success. -/
theorem parse_lur_rejects_8_byte_buffer :
    parse_lur [0, 0, 0, 12, 65, 52, 0, 1] = none ∧
    lurSpecMalformed [0, 0, 0, 12, 65, 52, 0, 1] = false := by
  exact ⟨by decide, by decide⟩

/-- C8 amended: parse_lur fails exactly when the buffer is shorter than
8 bytes, num_header_files is 0, the buffer ends before one of the two
declared-length bytes, or a declared length exceeds the bytes remaining
after it; on success each string field is retained truncated to at most
255 bytes of its declared length (declared lengths are single bytes in
the record layout, so the cap is never exceeded by a byte value). -/
theorem parse_lur_error_characterization (buf : List Nat) :
    ((parse_lur buf).isNone ↔ lurCodeMalformed buf = true) ∧
    (∀ r, parse_lur buf = some r →
      r.headerFilename.length = min r.headerFileLength 255 ∧
      r.loadPartNumber.length = min r.loadPartNumberLength 255) := by
  by_cases h8 : buf.length < 8
  · refine ⟨by simp [parse_lur, lurCodeMalformed, h8], ?_⟩
    intro r hr
    simp [parse_lur, h8] at hr
  · by_cases h0 : beNat ((buf.drop 6).take 2) = 0
    · refine ⟨by simp [parse_lur, lurCodeMalformed, h8, h0], ?_⟩
      intro r hr
      simp [parse_lur, h8, h0] at hr
    · cases hrest : buf.drop 8 with
      | nil =>
        refine ⟨by simp [parse_lur, lurCodeMalformed, h8, h0, hrest], ?_⟩
        intro r hr
        simp [parse_lur, h8, h0, hrest] at hr
      | cons hlen rest1 =>
        by_cases hh : rest1.length < hlen
        · refine ⟨by simp [parse_lur, lurCodeMalformed, h8, h0, hrest, hh], ?_⟩
          intro r hr
          simp [parse_lur, h8, h0, hrest, hh] at hr
        · cases hrest2 : rest1.drop hlen with
          | nil =>
            refine ⟨by simp [parse_lur, lurCodeMalformed, h8, h0, hrest, hh,
              hrest2], ?_⟩
            intro r hr
            simp [parse_lur, h8, h0, hrest, hh, hrest2] at hr
          | cons plen rest3 =>
            by_cases hp : rest3.length < plen
            · refine ⟨by simp [parse_lur, lurCodeMalformed, h8, h0, hrest, hh,
                hrest2, hp], ?_⟩
              intro r hr
              simp [parse_lur, h8, h0, hrest, hh, hrest2, hp] at hr
            · refine ⟨by simp [parse_lur, lurCodeMalformed, h8, h0, hrest, hh,
                hrest2, hp], ?_⟩
              intro r hr
              simp only [parse_lur, h8, h0, hrest, hh, hrest2, hp, if_neg,
                if_false, Option.some_inj] at hr
              have hr3 : rest3.length = (rest1.drop hlen).length - 1 := by
                rw [hrest2]; simp
              subst hr
              constructor
              · simp only [List.length_take]
                omega
              · have hple : plen ≤ rest3.length := by omega
                simp only [List.length_take]
                omega

/-- C8 amended witness: a 13-byte buffer declaring a 2-byte name and a
1-byte part number parses successfully, and both string fields are
retained at their declared lengths. -/
theorem parse_lur_error_characterization_witness :
    ([65, 66] : List Nat).length = min 2 255 ∧
    ([67] : List Nat).length = min 1 255 :=
  (parse_lur_error_characterization
      [0, 0, 0, 20, 65, 52, 0, 1, 2, 65, 66, 1, 67]).2
    ⟨20, [65, 52], 1, 2, [65, 66], 1, [67]⟩ (by decide)

end GseFls
